import Mathlib

/-!
Verification of the HTML-structure-preserving translation pipeline of the
AI-Translation-API backend (`app/utils/ollama_services.py`,
`app/services/translation.py`, `app/services/resume.py` and the helpers they
call).  Python string and list operations are embedded over `String` /
`List Char`; the external collaborators (the BeautifulSoup HTML parser and the
HTTP client) are modelled as explicit parameters (a parsed `Node` forest,
respectively response oracles), since their code is not part of the
repository.  `while` loops whose advancement is data-dependent are embedded
with an explicit fuel parameter, so that non-termination of the source loop is
visible as `none` for every fuel.
-/

/-! ## Python string primitives -/

/-- Python `str.strip()` on a character list: drop whitespace at both ends. -/
def pyStripList (cs : List Char) : List Char :=
  ((cs.dropWhile Char.isWhitespace).reverse.dropWhile Char.isWhitespace).reverse

/-- Python `str.strip()`. -/
def pyStrip (s : String) : String :=
  String.mk (pyStripList s.toList)

/-- Index of the last occurrence of `c`, Python `str.rfind` (`none` for -1). -/
def lastIndexOf (c : Char) : List Char → Option Nat
  | [] => none
  | x :: xs =>
      match lastIndexOf c xs with
      | some i => some (i + 1)
      | none => if x = c then some 0 else none

/-- Python `str.split(sep)` for a non-empty separator, fueled scan.
`acc` is the part being accumulated; each step either recognises the
separator (emitting `acc`) or moves one character into `acc`. -/
def pySplitGo : Nat → List Char → List Char → List Char → List (List Char)
  | 0, cs, _, acc => [acc ++ cs]
  | fuel + 1, cs, sep, acc =>
      if !sep.isEmpty && sep.isPrefixOf cs then
        acc :: pySplitGo fuel (cs.drop sep.length) sep []
      else
        match cs with
        | [] => [acc]
        | c :: tl => pySplitGo fuel tl sep (acc ++ [c])

/-- Python `str.split(sep)` on character lists (`sep` non-empty in all uses;
the fuel `cs.length + 1` is enough for the scan, which consumes at least one
character per step). -/
def pySplitL (cs sep : List Char) : List (List Char) :=
  pySplitGo (cs.length + 1) cs sep []

/-- Python `str.replace(pat, rep)` (all non-overlapping occurrences, left to
right); fueled scan, `pat` non-empty in all uses. -/
def pyReplaceGo : Nat → List Char → List Char → List Char → List Char
  | 0, cs, _, _ => cs
  | fuel + 1, cs, pat, rep =>
      if !pat.isEmpty && pat.isPrefixOf cs then
        rep ++ pyReplaceGo fuel (cs.drop pat.length) pat rep
      else
        match cs with
        | [] => []
        | c :: tl => c :: pyReplaceGo fuel tl pat rep

/-- Python `str.replace` on strings. -/
def pyReplace (s pat rep : String) : String :=
  String.mk (pyReplaceGo (s.toList.length + 1) s.toList pat.toList rep.toList)

/-- Python `sub in s` (substring test), fueled scan. -/
def containsSubGo : Nat → List Char → List Char → Bool
  | 0, _, _ => false
  | fuel + 1, cs, pat =>
      if pat.isPrefixOf cs then true
      else
        match cs with
        | [] => false
        | _ :: tl => containsSubGo fuel tl pat

/-- Python `sub in s` on strings. -/
def containsSub (s sub : String) : Bool :=
  containsSubGo (s.toList.length + 1) s.toList sub.toList

/-- Truthiness test `'<' in text and '>' in text` used by both services to
route a field through the HTML pipeline. -/
def hasHtmlMarkers (s : String) : Bool :=
  s.toList.contains '<' && s.toList.contains '>'

/-! ## Flat/placeholder extraction strategy
(`OllamaService.extract_text_from_html` / `OllamaService.reconstruct_html`,
`app/utils/ollama_services.py` lines 203-278). -/

/-- The numbered placeholder token `{TEXT_i__}` of the flat strategy. -/
def mkPlaceholder (i : Nat) : String :=
  "\x7bTEXT_" ++ toString i ++ "__\x7d"

/-- The scan of `re.sub(r'>([^<]+)<', replace_text, html)`: at each `>`
followed by a non-empty run of non-`<` characters and then a `<`, the matched
text is replaced by `>{TEXT_k__}<` when its strip is non-empty (recording the
segment), and kept verbatim otherwise; scanning resumes after the consumed
`<`.  Returns the collected segments and the template characters. -/
def flatScan : Nat → List Char → List String → List String × List Char
  | 0, cs, segs => (segs, cs)
  | fuel + 1, cs, segs =>
      match cs with
      | [] => (segs, [])
      | c :: rest =>
          if c = '>' then
            let txt := rest.takeWhile (· ≠ '<')
            let rest2 := rest.dropWhile (· ≠ '<')
            if txt.isEmpty || rest2.isEmpty then
              -- no match starting at this `>`
              let (segs1, out) := flatScan fuel rest segs
              (segs1, '>' :: out)
            else
              let t := pyStrip (String.mk txt)
              if t ≠ "" then
                let ph := mkPlaceholder segs.length
                let (segs1, out) := flatScan fuel rest2.tail (segs ++ [t])
                (segs1, '>' :: (ph.toList ++ '<' :: out))
              else
                -- whitespace-only text: `replace_text` returns the match unchanged
                let (segs1, out) := flatScan fuel rest2.tail segs
                (segs1, '>' :: (txt ++ '<' :: out))
          else
            let (segs1, out) := flatScan fuel rest segs
            (segs1, c :: out)

/-- Index of the first occurrence of `c`. -/
def firstIndexOf (c : Char) : List Char → Option Nat
  | [] => none
  | x :: xs => if x = c then some 0 else (firstIndexOf c xs).map (· + 1)

/-- `OllamaService.extract_text_from_html`: regex-based extraction producing
`(text_segments, placeholder_template)`; after the main scan, untagged text
before the first `<` and after the last `>` becomes two extra segments whose
placeholders are spliced into the template. -/
def extractTextFromHtml (html : String) : List String × String :=
  let (segs, tmpl) := flatScan (html.toList.length + 1) html.toList []
  -- handle text before the first tag (`if not placeholder_template.startswith('<')`)
  let (segs, tmpl) :=
    if tmpl.head? = some '<' then (segs, tmpl)
    else
      match firstIndexOf '<' tmpl with
      | none => (segs, tmpl)
      | some i =>
          let startText := pyStrip (String.mk (tmpl.take i))
          if startText ≠ "" then
            (segs ++ [startText], (mkPlaceholder segs.length).toList ++ tmpl.drop i)
          else (segs, tmpl)
  -- handle text after the last tag (`if not placeholder_template.endswith('>')`)
  let (segs, tmpl) :=
    if tmpl.getLast? = some '>' then (segs, tmpl)
    else
      match lastIndexOf '>' tmpl with
      | none => (segs, tmpl)
      | some j =>
          let endText := pyStrip (String.mk (tmpl.drop (j + 1)))
          if endText ≠ "" then
            (segs ++ [endText], tmpl.take (j + 1) ++ (mkPlaceholder segs.length).toList)
          else (segs, tmpl)
  (segs, String.mk tmpl)

/-- `OllamaService.reconstruct_html`: replace each placeholder `{TEXT_i__}`
by the corresponding translated segment. -/
def reconstructHtml (translatedSegments : List String) (template : String) : String :=
  (translatedSegments.enum).foldl
    (fun result p => pyReplace result (mkPlaceholder p.1) p.2) template

/-! ## Chunker (`OllamaService.split_html_into_chunks`,
`app/utils/ollama_services.py` lines 279-347).

The tier-3 `while` loop advances `start` by `cut + 1` where `cut` is the
result of `rfind('>')`; when the window has more `<` than `>` and no `>` at
all, `cut = -1` and the loop repeats with an unchanged state, so the loop is
embedded with explicit fuel and `none` means the fuel was exhausted (for the
fixpoint states: for every fuel). -/

/-- One tier-2 accumulation step (`for sub in part.split("</div>")`):
state is `(emitted chunks, buffer)`. -/
def tier2Step (maxChars : Nat) (st : List (List Char) × List Char) (sub : List Char) :
    List (List Char) × List Char :=
  if pyStripList sub = [] then st
  else
    let candidate := st.2 ++ sub ++ "</div>".toList
    if maxChars < candidate.length then
      ((if st.2 ≠ [] then st.1 ++ [st.2] else st.1), sub ++ "</div>".toList)
    else (st.1, candidate)

/-- Tiers 1 and 2: split on `"<hr"` (reattaching the marker to every part but
the first), strip and drop empty parts, keep parts within `max_chars`, and
re-split oversized parts at `"</div>"` boundaries with a running buffer. -/
def tier12 (cs : List Char) (maxChars : Nat) : List (List Char) :=
  let parts := pySplitL cs "<hr".toList
  let parts :=
    match parts with
    | [] => []
    | p :: ps => p :: ps.map (fun q => "<hr".toList ++ q)
  parts.foldl
    (fun acc part =>
      let part := pyStripList part
      if part = [] then acc
      else if part.length ≤ maxChars then acc ++ [part]
      else
        let st := (pySplitL part "</div>".toList).foldl (tier2Step maxChars) ([], [])
        acc ++ st.1 ++ (if st.2 ≠ [] then [st.2] else []))
    []

/-- The tier-3 character-window `while` loop.  `slice` is
`chunk[start : start + max_chars]`; when the slice has more `<` than `>` the
window is retracted to the last `>` (`cut`); with no `>` at all (`cut = -1`)
the source advances `start` by `cut + 1 = 0`, repeating for ever — here the
fuel runs out and the result is `none`. -/
def tier3Loop : Nat → List Char → Nat → Nat → List (List Char) → Option (List (List Char))
  | 0, _, _, _, _ => none
  | fuel + 1, chunk, maxChars, start, acc =>
      if start < chunk.length then
        let slice := (chunk.drop start).take maxChars
        if slice.count '>' < slice.count '<' then
          match lastIndexOf '>' slice with
          | some cut =>
              tier3Loop fuel chunk maxChars (start + (cut + 1)) (acc ++ [slice.take (cut + 1)])
          | none =>
              tier3Loop fuel chunk maxChars start acc
        else
          tier3Loop fuel chunk maxChars (start + maxChars) (acc ++ [slice])
      else some acc

/-- Step-3 safeguard for a single chunk: oversized chunks go through the
tier-3 window loop, others pass through unchanged. -/
def safeguard (fuel maxChars : Nat) (chunk : List Char) : Option (List (List Char)) :=
  if maxChars < chunk.length then tier3Loop fuel chunk maxChars 0 []
  else some [chunk]

/-- Apply the safeguard to every chunk in order, collecting the slices. -/
def collectSafe (fuel maxChars : Nat) : List (List Char) → Option (List (List Char))
  | [] => some []
  | c :: cs =>
      match safeguard fuel maxChars c, collectSafe fuel maxChars cs with
      | some a, some b => some (a ++ b)
      | _, _ => none

/-- `OllamaService.split_html_into_chunks`: the three-tier split, returning
the stripped non-empty chunks (`[c.strip() for c in safe_final if c.strip()]`).
`none` means the tier-3 loop never terminates for this input. -/
def splitHtmlIntoChunks (fuel : Nat) (html : String) (maxChars : Nat) :
    Option (List String) :=
  match collectSafe fuel maxChars (tier12 html.toList maxChars) with
  | none => none
  | some l => some (((l.map pyStripList).filter (· ≠ [])).map String.mk)

/-! ## Structural extraction strategy
(`OllamaService.extract_text_with_structure` /
`OllamaService.reconstruct_html_from_structure`,
`app/utils/ollama_services.py` lines 34-200).

The BeautifulSoup parse is the external-library boundary: the embedding takes
the parsed forest (`NavigableString` / `Tag` children of the soup, or of
`soup.body` when present) as a `List Node`.  `bs4` attribute values are
strings or lists of strings; `None` is kept as a constructor because the
reconstruction code handles it. -/

/-- A bs4 attribute value. -/
inductive AttrVal where
  | str (s : String)
  | list (l : List String)
  | null
deriving DecidableEq

/-- A parsed HTML node: `NavigableString` or `Tag` with name, attribute
mapping (`dict`: keys unique, insertion-ordered) and children. -/
inductive Node where
  | text (s : String)
  | tag (name : String) (attrs : List (String × AttrVal)) (children : List Node)

/-- One entry of a structure map `content` list: either a text placeholder
(`{'type': 'text', 'placeholder_index': i, 'original_text': t}`) or a tag
entry (`{'type': 'tag', 'tag_name', 'attributes', 'content'}` with optional
`alt_placeholder_index` / `title_placeholder_index`; the stored
`original_alt` / `original_title` strings are never read by reconstruction
and are omitted). -/
inductive SItem where
  | stext (placeholderIndex : Nat) (originalText : String)
  | stag (tagName : String) (attributes : List (String × AttrVal))
      (altIdx : Option Nat) (titleIdx : Option Nat) (content : List SItem)

/-- The structure map: the normal `'root'` form (its unused `original_html`
field omitted), or the `'fallback'` form carrying a flat template. -/
inductive SMap where
  | root (content : List SItem)
  | fallback (template : String)

/-- `element.get(key)`: first value bound to `key` in the attribute dict. -/
def getAttr (attrs : List (String × AttrVal)) (k : String) : Option AttrVal :=
  (attrs.find? (fun p => p.1 = k)).map Prod.snd

/-- Python truthiness of an attribute value. -/
def attrTruthy : AttrVal → Bool
  | .str s => s ≠ ""
  | .list l => !l.isEmpty
  | .null => false

/-- The `img`/`alt` special case of `process_element`
(`if element.name == 'img' and element.get('alt'): ... isinstance(..., str)
... alt_text.strip()`): returns the updated segment list and the recorded
`alt_placeholder_index`. -/
def altStep (name : String) (attrs : List (String × AttrVal)) (segs : List String) :
    List String × Option Nat :=
  if name = "img" then
    match getAttr attrs "alt" with
    | some v =>
        if attrTruthy v then
          match v with
          | .str s =>
              let altText := pyStrip s
              if altText ≠ "" then (segs ++ [altText], some segs.length) else (segs, none)
          | _ => (segs, none)
        else (segs, none)
    | none => (segs, none)
  else (segs, none)

/-- The `title` special case of `process_element` (any element;
`if title_attr: ... isinstance(..., str) ... title_text.strip()`). -/
def titleStep (attrs : List (String × AttrVal)) (segs : List String) :
    List String × Option Nat :=
  match getAttr attrs "title" with
  | some v =>
      if attrTruthy v then
        match v with
        | .str s =>
            let titleText := pyStrip s
            if titleText ≠ "" then (segs ++ [titleText], some segs.length) else (segs, none)
        | _ => (segs, none)
      else (segs, none)
  | none => (segs, none)

mutual
/-- `process_element`: a `NavigableString` with non-empty strip becomes a
text entry recording the next placeholder index; a `Tag` records its name and
attributes, then its `alt`/`title` segments, then its processed children.
Returns the extended segment list and the entries appended to the parent's
`content` (none for a whitespace-only string). -/
def processElement : Node → List String → List String × List SItem
  | Node.text s, segs =>
      let text := pyStrip s
      if text ≠ "" then (segs ++ [text], [SItem.stext segs.length text])
      else (segs, [])
  | Node.tag name attrs children, segs =>
      let (segs1, altIdx) := altStep name attrs segs
      let (segs2, titleIdx) := titleStep attrs segs1
      let (segs3, items) := processChildren children segs2
      (segs3, [SItem.stag name attrs altIdx titleIdx items])
/-- `for child in element.children: process_element(child, ...)`. -/
def processChildren : List Node → List String → List String × List SItem
  | [], segs => (segs, [])
  | c :: cs, segs =>
      let (segs1, item) := processElement c segs
      let (segs2, items) := processChildren cs segs1
      (segs2, item ++ items)
end

/-- `OllamaService.extract_text_with_structure` on the parsed forest: the
tree walk never raises in the embedding, so the `'fallback'` branch (taken
only when BeautifulSoup itself throws) does not occur here. -/
def extractTextWithStructure (roots : List Node) : List String × SMap :=
  let (segs, items) := processChildren roots []
  (segs, SMap.root items)

/-- The fixed self-closing tag set of the reconstruction. -/
def selfClosingTags : List String := ["img", "br", "hr", "input", "meta", "link"]

/-- Python `dict` assignment `attributes[key] = value`: replace the value of
an existing key in place, otherwise append the binding. -/
def dictSet (attrs : List (String × AttrVal)) (k : String) (v : AttrVal) :
    List (String × AttrVal) :=
  if attrs.any (fun p => p.1 = k) then
    attrs.map (fun p => if p.1 = k then (p.1, v) else p)
  else attrs ++ [(k, v)]

/-- Attribute value serialization of the reconstruction: lists are
space-joined, `None` becomes the empty string. -/
def serializeAttrVal : AttrVal → String
  | .str s => s
  | .list l => String.intercalate " " l
  | .null => ""

/-- The `attr_str` built by the reconstruction: empty for an empty dict,
otherwise a leading space and space-joined `key="value"` pairs. -/
def renderAttrs (attrs : List (String × AttrVal)) : String :=
  if attrs.isEmpty then ""
  else
    " " ++ String.intercalate " "
      (attrs.map (fun p => p.1 ++ "=\"" ++ serializeAttrVal p.2 ++ "\""))

mutual
/-- `render_content` on a single entry: text entries are replaced by the
translated segment at their index when in range (original text otherwise);
tag entries rebuild the attribute dict — substituting translated `alt`/`title`
when their index is in range — and render self-closing tags as
`<name attrs />`, other tags with recursively rendered content. -/
def renderItem (segs : List String) : SItem → String
  | SItem.stext idx orig => segs.getD idx orig
  | SItem.stag name attrs altIdx titleIdx content =>
      let attrs1 :=
        match altIdx with
        | some i => if i < segs.length then dictSet attrs "alt" (.str (segs.getD i "")) else attrs
        | none => attrs
      let attrs2 :=
        match titleIdx with
        | some i => if i < segs.length then dictSet attrs1 "title" (.str (segs.getD i "")) else attrs1
        | none => attrs1
      let attrStr := renderAttrs attrs2
      if name ∈ selfClosingTags then
        "<" ++ name ++ attrStr ++ " />"
      else
        "<" ++ name ++ attrStr ++ ">" ++ renderItems segs content ++ "</" ++ name ++ ">"
/-- `render_content` over a `content` list (`''.join(html_parts)`). -/
def renderItems (segs : List String) : List SItem → String
  | [] => ""
  | i :: is => renderItem segs i ++ renderItems segs is
end

/-- `OllamaService.reconstruct_html_from_structure`: the `'fallback'` form
delegates to the flat `reconstruct_html`; the `'root'` form renders its
`content` list.  (The `except` fallback of the source is unreachable in the
embedding: `render_content` is total.) -/
def reconstructHtmlFromStructure (translatedSegments : List String) (sm : SMap) : String :=
  match sm with
  | SMap.fallback template => reconstructHtml translatedSegments template
  | SMap.root content => renderItems translatedSegments content

/-! ## Spec-side serializer for the round-trip claim.

These definitions follow the specification's words for the expected result of
an identity round trip ("semantically equivalent HTML: same tag names/order,
same attribute key sets, same text content modulo whitespace trimming"): the
original forest serialized unchanged except that text nodes are trimmed
(whitespace-only ones dropped) and the extractable `alt`/`title` attribute
values are trimmed. -/

/-- The trimmed `alt` value the pipeline extracts from an `img` tag, when any. -/
def specAltVal (name : String) (attrs : List (String × AttrVal)) : Option String :=
  if name = "img" then
    match getAttr attrs "alt" with
    | some (AttrVal.str s) => if s ≠ "" ∧ pyStrip s ≠ "" then some (pyStrip s) else none
    | _ => none
  else none

/-- The trimmed `title` value the pipeline extracts from a tag, when any. -/
def specTitleVal (attrs : List (String × AttrVal)) : Option String :=
  match getAttr attrs "title" with
  | some (AttrVal.str s) => if s ≠ "" ∧ pyStrip s ≠ "" then some (pyStrip s) else none
  | _ => none

mutual
/-- Expected identity round-trip output for one node, per the spec's words. -/
def specRoundTripNode : Node → String
  | Node.text s => pyStrip s
  | Node.tag name attrs children =>
      let attrs1 :=
        match specAltVal name attrs with
        | some a => dictSet attrs "alt" (.str a)
        | none => attrs
      let attrs2 :=
        match specTitleVal attrs with
        | some t => dictSet attrs1 "title" (.str t)
        | none => attrs1
      let attrStr := renderAttrs attrs2
      if name ∈ selfClosingTags then
        "<" ++ name ++ attrStr ++ " />"
      else
        "<" ++ name ++ attrStr ++ ">" ++ specRoundTripForest children ++ "</" ++ name ++ ">"
/-- Expected identity round-trip output for a forest. -/
def specRoundTripForest : List Node → String
  | [] => ""
  | n :: ns => specRoundTripNode n ++ specRoundTripForest ns
end

/-! ## Response parser (`OllamaService._parse_numbered_translation`,
`app/utils/ollama_services.py` lines 551-573). -/

/-- The ordinal-marker characters of `^\d+[\.\)\-]`. -/
def isMarkChar (c : Char) : Bool := c = '.' || c = ')' || c = '-'

/-- `re.match(r'^\d+[\.\)\-]', line)`: the remainder after a leading digit
run and one marker character, or `none` when the line has no such marker. -/
def markerRest (cs : List Char) : Option (List Char) :=
  if (cs.takeWhile Char.isDigit).isEmpty then none
  else
    match cs.dropWhile Char.isDigit with
    | m :: tl => if isMarkChar m then some tl else none
    | [] => none

/-- `re.match(r'^\d+[\.\)\-]\s*(.+)', line)` followed by `.group(1).strip()`:
the full pattern matches exactly when something follows the marker (the lazy
give-back of `\s*` lets `(.+)` take trailing whitespace, which the `strip`
then removes), and the stripped group is the stripped remainder. -/
def matchNumberedLine (line : String) : Option String :=
  match markerRest line.toList with
  | some tail => if tail.isEmpty then none else some (pyStrip (String.mk tail))
  | none => none

/-- `segments[-1] += " " + line` (no effect on an empty list, which the
source guards with `if segments:`). -/
def appendToLast : List String → String → List String
  | [], _ => []
  | [x], line => [x ++ " " ++ line]
  | x :: xs, line => x :: appendToLast xs line

/-- One iteration of the parser's line loop. -/
def parseLineStep (segments : List String) (rawLine : String) : List String :=
  let line := pyStrip rawLine
  match matchNumberedLine line with
  | some v => segments ++ [v]
  | none =>
      if line ≠ "" && (markerRest line.toList).isNone then
        if segments.isEmpty then segments else appendToLast segments line
      else segments

/-- The `while len(segments) < expected_count: segments.append("")` loop. -/
def padTo (segments : List String) (expectedCount : Nat) : List String :=
  segments ++ List.replicate (expectedCount - segments.length) ""

/-- `OllamaService._parse_numbered_translation`: split the stripped response
into lines, collect numbered segments (joining unnumbered continuation lines
onto the last segment), pad with empty strings, truncate to
`expected_count`. -/
def parseNumberedTranslation (translationResponse : String) (expectedCount : Nat) :
    List String :=
  let lines := (pySplitL (pyStrip translationResponse).toList ['\n']).map String.mk
  let segments := lines.foldl parseLineStep []
  (padTo segments expectedCount).take expectedCount

/-! ## Per-chunk translation loop (`OllamaService.translate_html_content`,
`app/utils/ollama_services.py` lines 480-526).

The model call `generate_translation` is an oracle
`gen : prompt → Except error response`; the BeautifulSoup boundary is a
`parse : String → List Node` parameter feeding the structural extraction.
Each embedding returns the per-chunk outputs together with the list of
prompts actually sent to the model. -/

/-- The per-chunk translation prompt (the f-string of lines 492-504,
including its source indentation). -/
def mkChunkPrompt (targetLanguage chunk : String) : String :=
  "You are an AI specialized in translating to " ++ targetLanguage ++
  ", accordingly translate the below text by following the next list of rules:\n" ++
  "                    Rules:\n" ++
  "                    - Do not add explanations or extra text, no alternatives or explanations\n" ++
  "                    - Maintain the exact same structure\n" ++
  "                    - Use neutral, formal, and clear " ++ targetLanguage ++ " style\n" ++
  "                    - In case the text is a list, translate ONLY the text content after each number, once done keep the same numbering if any (1., 2., 3., etc.)\n" ++
  "                    - Preserve the HTML structure and tags exactly as they are.\n" ++
  "                    - Translate literally the visible text between the tags.\n" ++
  "                    - Use style suitable for an educational or explanatory talk. Avoid slang or regional idioms.\n" ++
  "                    - Return only the translated. Do not wrap it in extra mark  down, do not explain, do not say \"Here is your translation\".\n" ++
  "                    - Do not return any context array numbers.\n" ++
  "                    The text to translate is:\n" ++
  "                    " ++ chunk

/-- Python truthiness of a pair: a 2-tuple is always truthy.  The source
binds the whole pair returned by `extract_text_with_structure` to
`text_segments` (no destructuring), so its `if not text_segments:` guard
tests this pair. -/
def pairTruthy {α β : Type} (_ : α × β) : Bool := true

/-- The body of the per-chunk `try` block: extract (the zero-segment guard
tests the truthiness of the whole extraction pair), build the prompt, call
the model; on an exception or an empty/short (< 5 chars stripped) response
keep the original chunk, otherwise append the stripped response.  Returns
`(chunk output, prompts sent)`. -/
def processChunk (gen : String → Except String String) (parse : String → List Node)
    (targetLanguage chunk : String) : String × List String :=
  let textSegments := extractTextWithStructure (parse chunk)
  if !pairTruthy textSegments then (chunk, [])
  else
    let prompt := mkChunkPrompt targetLanguage chunk
    match gen prompt with
    | .error _ => (chunk, [prompt])
    | .ok translatedResponse =>
        if translatedResponse = "" || (pyStrip translatedResponse).length < 5 then
          (chunk, [prompt])
        else (pyStrip translatedResponse, [prompt])

/-- The `for i, chunk in enumerate(chunks)` loop: outputs accumulate in
order, prompts likewise. -/
def translateChunks (gen : String → Except String String) (parse : String → List Node)
    (targetLanguage : String) (chunks : List String) : List String × List String :=
  chunks.foldl
    (fun st chunk =>
      let (output, prompts) := processChunk gen parse targetLanguage chunk
      (st.1 ++ [output], st.2 ++ prompts))
    ([], [])

/-! ## Model client (`OllamaService.generate_translation`,
`app/utils/ollama_services.py` lines 634-677). -/

/-- The JSON body of the generation POST. -/
structure GeneratePayload where
  model : String
  prompt : String
  stream : Bool
  temperature : Rat
deriving DecidableEq

/-- Outcome of the single HTTP POST: a transport error, or a response with a
status code and the optional `response` text field of its JSON body. -/
inductive HttpOutcome where
  | transportError (msg : String)
  | response (status : Nat) (responseField : Option String)

/-- The payload built at lines 652-657: its `model` field is
`OLLAMA_DEFAULT_MODEL`, not the function's `model` argument. -/
def buildGeneratePayload (defaultModel prompt _model : String) : GeneratePayload :=
  { model := defaultModel
    prompt := prompt
    stream := false
    temperature := 3 / 10 }

/-- `generate_translation`: build the payload, POST once; a transport error
or a non-2xx status (`raise_for_status`) becomes a typed failure, otherwise
the stripped `response` field (`data.get("response", "").strip()`) is
returned.  The second component is the list of POSTs performed. -/
def generateTranslation (defaultModel : String) (http : GeneratePayload → HttpOutcome)
    (prompt modelArg : String) : Except String String × List GeneratePayload :=
  let payload := buildGeneratePayload defaultModel prompt modelArg
  match http payload with
  | .transportError msg => (.error ("Translation service error: " ++ msg), [payload])
  | .response status responseField =>
      if 400 ≤ status then
        (.error ("Ollama API error: " ++ toString status), [payload])
      else
        (.ok (pyStrip (responseField.getD "")), [payload])

/-! ## Sanitizers (`app/utils/sanitize_text.py`, `app/utils/sanitize_html.py`).

Each `re.sub(pattern, '', text)` is embedded as a left-to-right scan deleting
every leftmost non-overlapping match; a matcher returns the remainder after a
match starting at the current position. -/

/-- Python `\w` (ASCII part, which is all these patterns meet). -/
def isWordChar (c : Char) : Bool := c.isAlphanum || c = '_'

/-- Collapse state machine for `re.sub(r'\s+', ' ', text)`: the flag says a
whitespace run is in progress (its single `' '` already emitted). -/
def collapseWsGo : Bool → List Char → List Char
  | _, [] => []
  | prevWs, c :: cs =>
      if c.isWhitespace then
        if prevWs then collapseWsGo true cs else ' ' :: collapseWsGo true cs
      else c :: collapseWsGo false cs

/-- `re.sub(r'\s+', ' ', text)`. -/
def collapseWs (cs : List Char) : List Char := collapseWsGo false cs

/-- `re.sub(r'\n{3,}', '\n\n', text)`: keep the first two newlines of every
run, drop the rest (the counter is the number of preceding consecutive
newlines). -/
def collapseNlGo : Nat → List Char → List Char
  | _, [] => []
  | k, c :: cs =>
      if c = '\n' then
        if 2 ≤ k then collapseNlGo (k + 1) cs else '\n' :: collapseNlGo (k + 1) cs
      else c :: collapseNlGo 0 cs

/-- Match a case-insensitive literal (given lowercase), returning the rest. -/
def matchCiSeq : List Char → List Char → Option (List Char)
  | [], cs => some cs
  | _ :: _, [] => none
  | p :: ps, c :: cs => if c.toLower = p then matchCiSeq ps cs else none

/-- Expect one exact character. -/
def expectChar (c : Char) : List Char → Option (List Char)
  | x :: xs => if x = c then some xs else none
  | [] => none

/-- A single-quote character. -/
def squote : Char := Char.ofNat 39

/-- Lazy `.*?` up to a sub-matcher: remainder after the earliest match. -/
def scanFor (m : List Char → Option (List Char)) : List Char → Option (List Char)
  | [] => m []
  | c :: tl =>
      match m (c :: tl) with
      | some rest => some rest
      | none => scanFor m tl

/-- Delete every leftmost non-overlapping match of `m` (a matched rest is
strictly shorter here, and the fuel bounds the scan). -/
def reSubDelete : Nat → (List Char → Option (List Char)) → List Char → List Char
  | _, _, [] => []
  | 0, _, cs => cs
  | fuel + 1, m, c :: tl =>
      match m (c :: tl) with
      | some rest => reSubDelete fuel m rest
      | none => c :: reSubDelete fuel m tl

/-- `sanitize_text` pattern `<script.*?</script>` (IGNORECASE, DOTALL). -/
def matchScriptSimple (cs : List Char) : Option (List Char) :=
  match matchCiSeq "<script".toList cs with
  | some rest => scanFor (matchCiSeq "</script>".toList) rest
  | none => none

/-- Remainder after the first `>` not preceded by a newline (`.` of `<.*?>`
does not cross a newline). -/
def findGtNoNl : List Char → Option (List Char)
  | [] => none
  | c :: tl => if c = '>' then some tl else if c = '\n' then none else findGtNoNl tl

/-- `sanitize_text` pattern `<.*?>`. -/
def matchTagAny : List Char → Option (List Char)
  | '<' :: tl => findGtNoNl tl
  | _ => none

/-- `sanitize_text` (`app/utils/sanitize_text.py`): falsy input returns
`""`; otherwise collapse whitespace, strip, delete script blocks, delete
tags, collapse newline runs. -/
def sanitizeText (text : String) : String :=
  if text = "" then ""
  else
    let t := collapseWs text.toList
    let t := pyStripList t
    let t := reSubDelete t.length matchScriptSimple t
    let t := reSubDelete t.length matchTagAny t
    let t := collapseNlGo 0 t
    String.mk t

/-- `sanitize_html` pattern `<\s*script[^>]*>.*?<\s*/\s*script\s*>`: the
closing-tag sub-matcher. -/
def matchScriptClose (cs : List Char) : Option (List Char) :=
  (expectChar '<' cs).bind fun r1 =>
  (expectChar '/' (r1.dropWhile Char.isWhitespace)).bind fun r2 =>
  (matchCiSeq "script".toList (r2.dropWhile Char.isWhitespace)).bind fun r3 =>
  expectChar '>' (r3.dropWhile Char.isWhitespace)

/-- `sanitize_html` pattern `<\s*script[^>]*>.*?<\s*/\s*script\s*>`. -/
def matchScriptBlock (cs : List Char) : Option (List Char) :=
  (expectChar '<' cs).bind fun r1 =>
  (matchCiSeq "script".toList (r1.dropWhile Char.isWhitespace)).bind fun r2 =>
  (expectChar '>' (r2.dropWhile (· ≠ '>'))).bind fun r3 =>
  scanFor matchScriptClose r3

/-- `sanitize_html` patterns `on\w+\s*=\s*"[^"]*"` and the single-quoted
variant (`q` is the quote character). -/
def matchOnHandlerQuoted (q : Char) (cs : List Char) : Option (List Char) :=
  (matchCiSeq "on".toList cs).bind fun r1 =>
  let w := r1.takeWhile isWordChar
  if w.isEmpty then none
  else
    (expectChar '=' ((r1.drop w.length).dropWhile Char.isWhitespace)).bind fun r2 =>
    (expectChar q (r2.dropWhile Char.isWhitespace)).bind fun r3 =>
    expectChar q (r3.dropWhile (· ≠ q))

/-- `sanitize_html` pattern `on\w+\s*=\s*[^ >]+` (greedy embedding; the
regex engine's give-back from `\s*` into `[^ >]+` matters only when the
value is itself non-space whitespace). -/
def matchOnHandlerBare (cs : List Char) : Option (List Char) :=
  (matchCiSeq "on".toList cs).bind fun r1 =>
  let w := r1.takeWhile isWordChar
  if w.isEmpty then none
  else
    (expectChar '=' ((r1.drop w.length).dropWhile Char.isWhitespace)).bind fun r2 =>
    let r3 := r2.dropWhile Char.isWhitespace
    let v := r3.takeWhile (fun c => c ≠ ' ' && c ≠ '>')
    if v.isEmpty then none else some (r3.drop v.length)

/-- `sanitize_html` patterns `(href|src)\s*=\s*"javascript:[^"]*"` and the
single-quoted variant. -/
def matchJsUrl (q : Char) (cs : List Char) : Option (List Char) :=
  (match matchCiSeq "href".toList cs with
   | some r => some r
   | none => matchCiSeq "src".toList cs).bind fun r1 =>
  (expectChar '=' (r1.dropWhile Char.isWhitespace)).bind fun r2 =>
  (expectChar q (r2.dropWhile Char.isWhitespace)).bind fun r3 =>
  (matchCiSeq "javascript:".toList r3).bind fun r4 =>
  expectChar q (r4.dropWhile (· ≠ q))

/-- `sanitize_html` (`app/utils/sanitize_html.py`): the six deletions in
source order. -/
def sanitizeHtml (html : String) : String :=
  let t := html.toList
  let t := reSubDelete t.length matchScriptBlock t
  let t := reSubDelete t.length (matchOnHandlerQuoted '"') t
  let t := reSubDelete t.length (matchOnHandlerQuoted squote) t
  let t := reSubDelete t.length matchOnHandlerBare t
  let t := reSubDelete t.length (matchJsUrl '"') t
  let t := reSubDelete t.length (matchJsUrl squote) t
  String.mk t

/-! ## Translation service (`TranslationService.translate`,
`app/services/translation.py` lines 22-117, and
`app/utils/create_prompt_translation.py`). -/

/-- `create_prompt_translation`: the combined single-call prompt. -/
def createPromptTranslation (title body sectionText targetLanguage : String) : String :=
  "Translate the following text segments to " ++ targetLanguage ++ ". \n" ++
  "- Use only one translation, no alternatives or explanations.\n" ++
  "- Preserve the HTML structure and tags exactly as they are.\n" ++
  "- Translate literally the visible text between the tags.\n" ++
  "- Use a neutral, formal, and clear Spanish style — suitable for an educational or explanatory talk. Avoid slang or regional idioms.\n" ++
  "- Return only the translated. Do not wrap it in extra markdown, do not explain, do not say \"Here is your translation\".\n" ++
  "- Do not return any context array numbers.\n" ++
  "- Return the translation in this exact format:\n" ++
  "# Título: [translated title]\n" ++
  "# Cuerpo: [translated body]\n" ++
  "# Sección: [translated section]\n" ++
  "Title: " ++ title ++ "\n" ++
  "Body: " ++ body ++ "\n" ++
  "Sección: " ++ sectionText ++ "\n"

/-- Case-insensitive character classes of `T[ií]tulo:`. -/
def tituloClasses : List (List Char) :=
  [['T', 't'], ['i', 'í', 'I', 'Í'], ['t', 'T'], ['u', 'U'], ['l', 'L'], ['o', 'O'], [':']]

/-- Case-insensitive character classes of `Cuerpo:`. -/
def cuerpoClasses : List (List Char) :=
  [['C', 'c'], ['u', 'U'], ['e', 'E'], ['r', 'R'], ['p', 'P'], ['o', 'O'], [':']]

/-- Case-insensitive character classes of `Secci[oó]n:`. -/
def seccionClasses : List (List Char) :=
  [['S', 's'], ['e', 'E'], ['c', 'C'], ['c', 'C'], ['i', 'I'], ['o', 'O', 'ó', 'Ó'],
   ['n', 'N'], [':']]

/-- Match a sequence of character classes, returning the remainder. -/
def matchClasses : List (List Char) → List Char → Option (List Char)
  | [], cs => some cs
  | _ :: _, [] => none
  | cl :: cls, c :: cs => if cl.contains c then matchClasses cls cs else none

/-- `re.search(pattern + r':([^\n]*)', text)`: leftmost match of the label,
capturing up to the next newline. -/
def searchCapture (classes : List (List Char)) : List Char → Option (List Char)
  | [] => if classes.isEmpty then some [] else none
  | c :: tl =>
      match matchClasses classes (c :: tl) with
      | some rest => some (rest.takeWhile (· ≠ '\n'))
      | none => searchCapture classes tl

/-- `match.group(1).strip() if match else ''`. -/
def labelValue (classes : List (List Char)) (s : String) : String :=
  match searchCapture classes s.toList with
  | some g => pyStrip (String.mk g)
  | none => ""

/-- `TranslationRequest` (`app/schemas/translation.py`). -/
structure TranslationRequest where
  title : String
  body : String
  sectionText : String
  targetLanguage : String
  model : String

/-- `TranslationResponse` (`app/schemas/translation.py`): the
`translated_text` dict flattened into its three string fields. -/
structure TranslationResponse where
  title : String
  body : String
  sectionText : String
  success : Bool
  modelUsed : String
deriving DecidableEq

/-- One external model interaction performed by the service. -/
inductive ModelCall where
  | htmlCall (content targetLanguage model : String)
  | genCall (prompt model : String)
deriving DecidableEq

/-- The response built by the service's `except Exception` handler. -/
def failureResponse (model : String) : TranslationResponse :=
  { title := "", body := "", sectionText := "", success := false, modelUsed := model }

/-- The two model operations `TranslationService.translate` relies on,
as oracles (`ollama_service.translate_html_content` can raise — its old-method
fallback calls `generate_translation` outside any handler — and
`generate_translation` raises typed failures). -/
structure OllamaOracle where
  translateHtml : String → String → String → Except String String
  generate : String → String → Except String String

/-- `TranslationService.translate`: route through per-field HTML translation
when any field contains both markers, else sanitize, build one combined
prompt, call the model once and pattern-match the sanitized response back
into fields (the inner `try` around the `re.search` calls cannot raise in the
embedding, searching is total).  Any oracle exception reaches the outer
`except Exception`, which returns the failure response.  The second component
lists the model calls made. -/
def translateService (o : OllamaOracle) (req : TranslationRequest) :
    TranslationResponse × List ModelCall :=
  let hasHtml := hasHtmlMarkers req.title || hasHtmlMarkers req.body ||
    hasHtmlMarkers req.sectionText
  if hasHtml then
    let c1 := ModelCall.htmlCall req.title req.targetLanguage req.model
    let c2 := ModelCall.htmlCall req.body req.targetLanguage req.model
    let c3 := ModelCall.htmlCall req.sectionText req.targetLanguage req.model
    match o.translateHtml req.title req.targetLanguage req.model with
    | .error _ => (failureResponse req.model, [c1])
    | .ok t1 =>
        match o.translateHtml req.body req.targetLanguage req.model with
        | .error _ => (failureResponse req.model, [c1, c2])
        | .ok t2 =>
            match o.translateHtml req.sectionText req.targetLanguage req.model with
            | .error _ => (failureResponse req.model, [c1, c2, c3])
            | .ok t3 =>
                ({ title := sanitizeText t1
                   body := sanitizeHtml t2
                   sectionText := sanitizeText t3
                   success := true
                   modelUsed := req.model }, [c1, c2, c3])
  else
    let prompt := createPromptTranslation (sanitizeText req.title) (sanitizeText req.body)
      (sanitizeText req.sectionText) (sanitizeText req.targetLanguage)
    match o.generate prompt req.model with
    | .error _ => (failureResponse req.model, [ModelCall.genCall prompt req.model])
    | .ok rawTranslation =>
        let sanitized := sanitizeText rawTranslation
        ({ title := sanitizeText (labelValue tituloClasses sanitized)
           body := sanitizeText (labelValue cuerpoClasses sanitized)
           sectionText := sanitizeText (labelValue seccionClasses sanitized)
           success := true
           modelUsed := req.model }, [ModelCall.genCall prompt req.model])

/-! ## Resume service (`ResumeService.summarize`, `app/services/resume.py`,
and `OllamaService.resume_article`, `app/utils/ollama_services.py`
lines 679-712). -/

/-- `ResumeRequest` (imported by `app/services/resume.py`; fields as used
there and by `app/routers/resume_router.py`). -/
structure ResumeRequest where
  article : String
  esArticle : String

/-- `ResumeResponse`. -/
structure ResumeResponse where
  article : String
  esArticle : String
deriving DecidableEq

/-- The parameters of `OllamaService.resume_article(self, title, body,
model, language)` (without `self`). -/
def resumeArticleParamNames : List String := ["title", "body", "model", "language"]

/-- The keyword arguments of the call
`ollama_service.resume_article(request=text, model=..., language=language)`
in `ResumeService.summarize.summarize_field`. -/
def resumeCallKwargNames : List String := ["request", "model", "language"]

/-- Python call binding by keywords only: a keyword that is not a parameter,
or a parameter left unbound, raises `TypeError` at the call site. -/
def pyBindKwargs (params kwargs : List String) : Except String Unit :=
  if kwargs.all (fun k => params.contains k) then
    if params.all (fun p => kwargs.contains p) then Except.ok ()
    else Except.error "TypeError: missing required positional argument"
  else Except.error "TypeError: unexpected keyword argument"

/-- `resume_article`'s prompt (abridged to the language-selected instruction
text; the trailing f-string interpolates a Python tuple of the title and body
fragments, which no caller ever reaches through `ResumeService`). -/
def mkResumePrompt (language title body : String) : String :=
  if language = "en" then
    "You are an AI specialized in creating engaging article descriptions." ++
    " Title: " ++ title ++ " Article: " ++ body
  else
    "Eres una IA especializada en crear descripciones atractivas de artículos." ++
    " Titulo: " ++ title ++ " Artículo: " ++ body

/-- `OllamaService.resume_article`: one model call; its
`except Exception` handler logs and falls through to `return resume`, so an
oracle failure yields the initial `""`. -/
def resumeArticle (g : String → String → Except String String)
    (title body model language : String) : String :=
  match g (mkResumePrompt language title body) model with
  | .ok r => r
  | .error _ => ""

/-- `summarize_field`: the call `resume_article(request=..., model=...,
language=...)` binds keywords against `resume_article(title, body, model,
language)`; binding fails (`TypeError`) before the coroutine body runs.  The
`ok` branch is therefore unreachable (it would summarize `text` with the
default model). -/
def summarizeField (g : String → String → Except String String)
    (text language : String) : Except String String :=
  match pyBindKwargs resumeArticleParamNames resumeCallKwargNames with
  | .error e => Except.error e
  | .ok _ => Except.ok (sanitizeText (resumeArticle g text "" "llama3.2" language))

/-- `ResumeService.summarize`: sanitize when HTML markers are present, then
summarize both fields inside the `try`; any exception reaches
`except Exception`, which returns the empty response. -/
def summarizeService (g : String → String → Except String String)
    (req : ResumeRequest) : ResumeResponse :=
  let hasHtml := hasHtmlMarkers req.article || hasHtmlMarkers req.esArticle
  let article1 := if hasHtml then sanitizeHtml req.article else req.article
  let esArticle1 := if hasHtml then sanitizeHtml req.esArticle else req.esArticle
  match summarizeField g article1 "en" with
  | .error _ => { article := "", esArticle := "" }
  | .ok a =>
      match summarizeField g esArticle1 "es" with
      | .error _ => { article := "", esArticle := "" }
      | .ok b => { article := a, esArticle := b }

/-! ## Concrete fixtures used by witnesses and counterexamples -/

/-- Whether a tier-3 slice is balanced or was retracted to a `>`. -/
def goodSliceB (s : List Char) : Bool :=
  (s.count '<' ≤ s.count '>') || (s.getLast? == some '>')

/-- Three chunks; the middle one will get a failing model call. -/
def chunksThree : List String := ["<p>a</p>", "<p>b</p>", "<p>c</p>"]

/-- Model oracle raising exactly for the middle chunk's prompt. -/
def genFailsOnB : String → Except String String := fun p =>
  if p = mkChunkPrompt "Spanish" "<p>b</p>" then Except.error "connection refused"
  else Except.ok "TRADUCCION LISTA"

/-- Parser stub returning an empty forest (the extraction result is dead in
the per-chunk loop: only its tuple truthiness is tested). -/
def parseNone : String → List Node := fun _ => []

/-- Parser returning a childless `div`, a forest with zero text segments. -/
def parseDivOnly : String → List Node := fun _ => [Node.tag "div" [] []]

/-- Model oracle returning a viable (≥ 5 chars) translation. -/
def genHola : String → Except String String := fun _ => Except.ok "Hola mundo."

/-- A plain-text translation request (no HTML markers in any field). -/
def reqPlain : TranslationRequest :=
  { title := "Hello", body := "World", sectionText := "News",
    targetLanguage := "Spanish", model := "llama3.2" }

/-- A labeled combined response for the plain-text path. -/
def respLabeled : String := "Título: Hola\nCuerpo: Mundo\nSección: Noticias"

/-- Oracle for the plain-text path: one combined generation answering with
the labeled response. -/
def oraclePlain : OllamaOracle :=
  { translateHtml := fun _ _ _ => Except.error "not used"
    generate := fun _ _ => Except.ok respLabeled }

/-- The single chunk tiers 1-2 produce from the document `"<<<<"` at
`max_chars = 2` (the trailing `"</div>"` is the tier-2 re-join artefact). -/
def stuckChunk : List Char := "<<<<</div>".toList

/-! ## Theorems -/

/-- C2: for every raw response string and every expected count, the response
parser `_parse_numbered_translation` returns exactly `expected_count`
strings (recovered segments beyond the count are truncated, missing ones are
padded with `""`); the embedding is total, matching "never raises". -/
theorem parse_numbered_translation_length (translationResponse : String)
    (expectedCount : Nat) :
    (parseNumberedTranslation translationResponse expectedCount).length
      = expectedCount := by
  unfold parseNumberedTranslation padTo
  simp [List.length_take]
  omega

/-- C3 counterexample: `split_html_into_chunks` can emit a chunk with more
`<` than `>` — a short document that never reaches the tier-3 slicer passes
through verbatim. -/
theorem chunker_emits_unbalanced_chunk :
    splitHtmlIntoChunks 100 "<a" 10 = some ["<a"]
    ∧ ("<a".toList.count '>' < "<a".toList.count '<') := by decide

/-- `lastIndexOf` returns an index holding the sought character. -/
theorem lastIndexOf_get (c : Char) :
    ∀ (cs : List Char) (i : Nat), lastIndexOf c cs = some i →
      i < cs.length ∧ cs[i]? = some c := by
  intro cs
  induction cs with
  | nil => intro i h; simp [lastIndexOf] at h
  | cons x xs ih =>
      intro i h
      unfold lastIndexOf at h
      cases hx : lastIndexOf c xs with
      | some j =>
          rw [hx] at h
          obtain ⟨hj1, hj2⟩ := ih j hx
          cases h
          exact ⟨by simpa using Nat.succ_lt_succ hj1, by simpa using hj2⟩
      | none =>
          rw [hx] at h
          by_cases hxc : x = c
          · simp [hxc] at h
            subst h
            simp [hxc]
          · simp [hxc] at h

/-- Prepending to a non-empty list keeps its last element. -/
theorem getLast?_cons_ne_nil {α : Type} (x : α) :
    ∀ (l : List α), l ≠ [] → (x :: l).getLast? = l.getLast? := by
  intro l hl
  cases l with
  | nil => exact absurd rfl hl
  | cons y ys => exact List.getLast?_cons_cons

/-- Taking one past an index holding `c` yields a list ending in `c`. -/
theorem getLast?_take_succ (c : Char) :
    ∀ (cs : List Char) (i : Nat), cs[i]? = some c →
      (cs.take (i + 1)).getLast? = some c := by
  intro cs
  induction cs with
  | nil => intro i h; simp at h
  | cons x xs ih =>
      intro i h
      cases i with
      | zero =>
          simp at h
          simp [h]
      | succ j =>
          simp at h
          have hxs := ih j h
          have hne : xs.take (j + 1) ≠ [] := by
            intro hcon
            rw [hcon] at hxs
            simp at hxs
          rw [List.take_succ_cons, getLast?_cons_ne_nil x _ hne]
          exact hxs

/-- Every slice the tier-3 loop appends is balanced or retracted to a `>`. -/
theorem tier3Loop_slices_good :
    ∀ (fuel : Nat) (chunk : List Char) (maxChars start : Nat)
      (acc out : List (List Char)),
      tier3Loop fuel chunk maxChars start acc = some out →
      (∀ s ∈ acc, goodSliceB s = true) → ∀ s ∈ out, goodSliceB s = true := by
  intro fuel
  induction fuel with
  | zero => intro chunk maxChars start acc out h; simp [tier3Loop] at h
  | succ n ih =>
      intro chunk maxChars start acc out h hacc
      unfold tier3Loop at h
      by_cases hlt : start < chunk.length
      · rw [if_pos hlt] at h
        by_cases hcnt : ((chunk.drop start).take maxChars).count '>'
            < ((chunk.drop start).take maxChars).count '<'
        · rw [if_pos hcnt] at h
          cases hcut : lastIndexOf '>' ((chunk.drop start).take maxChars) with
          | some cut =>
              rw [hcut] at h
              refine ih _ _ _ _ _ h ?_
              intro s hs
              rcases List.mem_append.mp hs with h1 | h2
              · exact hacc s h1
              · have hseq : s = ((chunk.drop start).take maxChars).take (cut + 1) := by
                  simpa using h2
                subst hseq
                have hget := (lastIndexOf_get '>' _ _ hcut).2
                have hlast := getLast?_take_succ '>' _ _ hget
                simp [goodSliceB, hlast]
          | none =>
              rw [hcut] at h
              exact ih _ _ _ _ _ h hacc
        · rw [if_neg hcnt] at h
          refine ih _ _ _ _ _ h ?_
          intro s hs
          rcases List.mem_append.mp hs with h1 | h2
          · exact hacc s h1
          · have hseq : s = (chunk.drop start).take maxChars := by simpa using h2
            subst hseq
            simp [goodSliceB]
            left
            omega
      · rw [if_neg hlt] at h
        cases h
        exact hacc

/-- C3 amended: when the source's step-3 safeguard slices an oversized chunk
and its loop completes, every emitted slice either contains at most as many
`<` as `>` characters or ends with `>` (the retraction cuts at the last
complete `>`; the retracted slice may still contain earlier unmatched `<`,
and chunks of at most `max_chars` characters bypass the safeguard verbatim
with no balance guarantee at all). -/
theorem tier3_safeguard_slices_good (fuel maxChars : Nat) (chunk : List Char)
    (out : List (List Char)) (hbig : maxChars < chunk.length)
    (h : safeguard fuel maxChars chunk = some out) :
    ∀ s ∈ out, goodSliceB s = true := by
  unfold safeguard at h
  rw [if_pos hbig] at h
  exact tier3Loop_slices_good fuel chunk maxChars 0 [] out h (by intro s hs; simp at hs)

/-- Witness for C3 amended at a concrete oversized chunk: the retracted first
slice `"<a<b>"` ends in `>` (it is not balanced), the second is balanced. -/
theorem tier3_safeguard_slices_good_witness :
    safeguard 20 8 "<a<b>cd</div>".toList
        = some ["<a<b>".toList, "cd</div>".toList]
    ∧ ∀ s ∈ ["<a<b>".toList, "cd</div>".toList], goodSliceB s = true := by
  refine ⟨by decide, ?_⟩
  refine tier3_safeguard_slices_good 20 8 "<a<b>cd</div>".toList _ (by decide) (by decide)

/-- The tier-3 loop is stuck on `stuckChunk` at `max_chars = 2`: the window
`"<<"` has more `<` than `>` and no `>` at all, so `rfind` gives `-1` and
`start += cut + 1` adds zero — one iteration returns to the same state. -/
theorem tier3Loop_stuck : ∀ (n : Nat) (acc : List (List Char)),
    tier3Loop n stuckChunk 2 0 acc = none := by
  intro n
  induction n with
  | zero => intro acc; rfl
  | succ m ih =>
      intro acc
      have hstep : tier3Loop (m + 1) stuckChunk 2 0 acc = tier3Loop m stuckChunk 2 0 acc := rfl
      rw [hstep]
      exact ih acc

/-- C9: `split_html_into_chunks` does not terminate on every input — for the
document `"<<<<"` with `max_chars = 2` the tier-3 loop never advances
(`start += cut + 1` with `cut = -1`), so the fueled embedding returns `none`
for every fuel bound. -/
theorem chunker_diverges_without_gt : ∀ fuel : Nat,
    splitHtmlIntoChunks fuel "<<<<" 2 = none := by
  intro fuel
  unfold splitHtmlIntoChunks
  have h12 : tier12 "<<<<".toList 2 = [stuckChunk] := by decide
  rw [h12]
  unfold collectSafe
  have hsafe : safeguard fuel 2 stuckChunk = none := by
    unfold safeguard
    rw [if_pos (by decide)]
    exact tier3Loop_stuck fuel []
  rw [hsafe]

/-- The chunk loop's fold is a per-chunk map on both outputs and prompts. -/
theorem translateChunks_foldl (gen : String → Except String String)
    (parse : String → List Node) (targetLanguage : String) :
    ∀ (chunks : List String) (st : List String × List String),
      chunks.foldl
        (fun st chunk =>
          let (output, prompts) := processChunk gen parse targetLanguage chunk
          (st.1 ++ [output], st.2 ++ prompts)) st
      = (st.1 ++ chunks.map (fun c => (processChunk gen parse targetLanguage c).1),
         st.2 ++ (chunks.map (fun c => (processChunk gen parse targetLanguage c).2)).flatten) := by
  intro chunks
  induction chunks with
  | nil => intro st; simp
  | cons c cs ih =>
      intro st
      simp only [List.foldl_cons, List.map_cons, List.flatten]
      rw [ih]
      simp

/-- C4: chunk-level failure isolation in `translate_html_content`'s loop —
the output list is a per-chunk map (so each chunk's output depends only on
that chunk: other chunks are unaffected by one chunk's failure, and the loop
never fails as a whole), and whenever the model call for a chunk raises or
every successful response is shorter than 5 characters after stripping, that
chunk's output is its original content. -/
theorem translate_chunk_isolation (gen : String → Except String String)
    (parse : String → List Node) (targetLanguage : String) (chunks : List String) :
    (translateChunks gen parse targetLanguage chunks).1
        = chunks.map (fun c => (processChunk gen parse targetLanguage c).1)
    ∧ ∀ chunk : String,
        (∀ r, gen (mkChunkPrompt targetLanguage chunk) = .ok r →
            (pyStrip r).length < 5) →
        (processChunk gen parse targetLanguage chunk).1 = chunk := by
  constructor
  · unfold translateChunks
    rw [translateChunks_foldl]
    simp
  · intro chunk hfail
    unfold processChunk
    simp only [pairTruthy, Bool.not_true, Bool.false_eq_true, if_false]
    cases hg : gen (mkChunkPrompt targetLanguage chunk) with
    | error e => simp
    | ok r =>
        have hshort := hfail r hg
        simp [hshort]

set_option maxRecDepth 40000 in
/-- Witness for C4: the model raises for chunk 2 of 3; chunks 1 and 3 still
produce translated output and chunk 2's output equals its original content. -/
theorem translate_chunk_isolation_witness :
    (translateChunks genFailsOnB parseNone "Spanish" chunksThree).1
        = ["TRADUCCION LISTA", "<p>b</p>", "TRADUCCION LISTA"]
    ∧ (processChunk genFailsOnB parseNone "Spanish" "<p>b</p>").1 = "<p>b</p>" := by
  constructor
  · rw [(translate_chunk_isolation genFailsOnB parseNone "Spanish" chunksThree).1]
    decide
  · refine (translate_chunk_isolation genFailsOnB parseNone "Spanish" chunksThree).2
      "<p>b</p>" ?_
    intro r hr
    have hgen : genFailsOnB (mkChunkPrompt "Spanish" "<p>b</p>")
        = Except.error "connection refused" := rfl
    rw [hgen] at hr
    exact Except.noConfusion hr

set_option linter.unusedVariables false in
/-- C5: the `if not text_segments:` guard tests the truthiness of the whole
extraction pair (never false), so even a chunk whose extraction yields zero
text segments (the hypothesis) is sent to the model — exactly one prompt is
issued for it — and a viable response replaces the chunk instead of passing
it through. -/
theorem zero_segments_still_calls_model (gen : String → Except String String)
    (parse : String → List Node) (targetLanguage chunk : String)
    (hseg : (extractTextWithStructure (parse chunk)).1 = []) :
    (processChunk gen parse targetLanguage chunk).2
        = [mkChunkPrompt targetLanguage chunk]
    ∧ ∀ r, gen (mkChunkPrompt targetLanguage chunk) = .ok r → r ≠ "" →
        ¬ (pyStrip r).length < 5 →
        (processChunk gen parse targetLanguage chunk).1 = pyStrip r := by
  constructor
  · unfold processChunk
    simp only [pairTruthy, Bool.not_true, Bool.false_eq_true, if_false]
    cases hg : gen (mkChunkPrompt targetLanguage chunk) with
    | error e => simp
    | ok r => simp only []; split <;> simp
  · intro r hg hne hlong
    unfold processChunk
    simp only [pairTruthy, Bool.not_true, Bool.false_eq_true, if_false]
    rw [hg]
    simp [hne, hlong]

set_option maxRecDepth 40000 in
/-- Witness for C5 at the failing input: the chunk `"<div></div>"` parses to
a childless `div` (zero text segments), yet one model call is made and its
response `"Hola mundo."` replaces the chunk. -/
theorem zero_segments_still_calls_model_witness :
    (extractTextWithStructure (parseDivOnly "<div></div>")).1 = []
    ∧ (processChunk genHola parseDivOnly "Spanish" "<div></div>").2
        = [mkChunkPrompt "Spanish" "<div></div>"]
    ∧ (processChunk genHola parseDivOnly "Spanish" "<div></div>").1 = "Hola mundo." := by
  have h := zero_segments_still_calls_model genHola parseDivOnly "Spanish" "<div></div>"
    (by decide)
  refine ⟨by decide, h.1, ?_⟩
  rw [h.2 "Hola mundo." rfl (by decide) (by decide)]
  decide

/-- C6 failing input: `generate_translation("Hola", model="mistral")` with
`OLLAMA_DEFAULT_MODEL = "llama3.2"` performs exactly one POST, but the JSON
body's `model` field is the environment default, not the `model` argument
(the payload at lines 652-657 uses `OLLAMA_DEFAULT_MODEL`); prompt, stream
and the success/error handling follow the claim. -/
theorem generate_payload_ignores_model_argument :
    (buildGeneratePayload "llama3.2" "Hola" "mistral").model = "llama3.2"
    ∧ (buildGeneratePayload "llama3.2" "Hola" "mistral").model ≠ "mistral"
    ∧ (buildGeneratePayload "llama3.2" "Hola" "mistral").prompt = "Hola"
    ∧ (buildGeneratePayload "llama3.2" "Hola" "mistral").stream = false
    ∧ (∀ http : GeneratePayload → HttpOutcome,
        (generateTranslation "llama3.2" http "Hola" "mistral").2
          = [buildGeneratePayload "llama3.2" "Hola" "mistral"]) := by
  refine ⟨rfl, by decide, rfl, rfl, ?_⟩
  intro http
  unfold generateTranslation
  simp only []
  cases h : http (buildGeneratePayload "llama3.2" "Hola" "mistral") with
  | transportError msg => rfl
  | response status responseField => simp only []; split <;> rfl

/-- C7: `TranslationService.translate` never surfaces an exception: the
embedding is total, and every path returns either a success response
(`success = true`) or exactly the `except Exception` handler's well-formed
response with `success = false` and empty title/body/section fields. -/
theorem translate_never_raises (o : OllamaOracle) (req : TranslationRequest) :
    (translateService o req).1.success = true
    ∨ (translateService o req).1 = failureResponse req.model := by
  unfold translateService
  simp only []
  split
  · cases o.translateHtml req.title req.targetLanguage req.model with
    | error e => right; rfl
    | ok t1 =>
        cases o.translateHtml req.body req.targetLanguage req.model with
        | error e => right; rfl
        | ok t2 =>
            cases o.translateHtml req.sectionText req.targetLanguage req.model with
            | error e => right; rfl
            | ok t3 => left; rfl
  · cases o.generate (createPromptTranslation (sanitizeText req.title)
        (sanitizeText req.body) (sanitizeText req.sectionText)
        (sanitizeText req.targetLanguage)) req.model with
    | error e => right; rfl
    | ok raw => left; rfl

/-- C8: when no field contains HTML markers, the service makes exactly one
model call, with the single combined prompt built from the sanitized fields
(not three calls); on a successful response the three fields are obtained by
the labeled-marker pattern match (`Título:` / `Cuerpo:` / `Sección:`) on the
sanitized response, and a field whose label is missing defaults to the empty
string. -/
theorem plain_text_single_combined_call (o : OllamaOracle) (req : TranslationRequest)
    (h1 : hasHtmlMarkers req.title = false) (h2 : hasHtmlMarkers req.body = false)
    (h3 : hasHtmlMarkers req.sectionText = false) :
    (translateService o req).2
        = [ModelCall.genCall (createPromptTranslation (sanitizeText req.title)
            (sanitizeText req.body) (sanitizeText req.sectionText)
            (sanitizeText req.targetLanguage)) req.model]
    ∧ ∀ raw, o.generate (createPromptTranslation (sanitizeText req.title)
          (sanitizeText req.body) (sanitizeText req.sectionText)
          (sanitizeText req.targetLanguage)) req.model = .ok raw →
        (translateService o req).1.title
            = sanitizeText (labelValue tituloClasses (sanitizeText raw))
        ∧ (translateService o req).1.body
            = sanitizeText (labelValue cuerpoClasses (sanitizeText raw))
        ∧ (translateService o req).1.sectionText
            = sanitizeText (labelValue seccionClasses (sanitizeText raw))
        ∧ (searchCapture tituloClasses (sanitizeText raw).toList = none →
            (translateService o req).1.title = "")
        ∧ (searchCapture cuerpoClasses (sanitizeText raw).toList = none →
            (translateService o req).1.body = "")
        ∧ (searchCapture seccionClasses (sanitizeText raw).toList = none →
            (translateService o req).1.sectionText = "") := by
  have hno : (hasHtmlMarkers req.title || hasHtmlMarkers req.body ||
      hasHtmlMarkers req.sectionText) = false := by
    rw [h1, h2, h3]; rfl
  unfold translateService
  rw [hno]
  simp only [Bool.false_eq_true, if_false]
  cases hg : o.generate (createPromptTranslation (sanitizeText req.title)
      (sanitizeText req.body) (sanitizeText req.sectionText)
      (sanitizeText req.targetLanguage)) req.model with
  | error e =>
      refine ⟨rfl, ?_⟩
      intro raw hraw
      exact Except.noConfusion hraw
  | ok r =>
      refine ⟨rfl, ?_⟩
      intro raw hraw
      cases hraw
      refine ⟨rfl, rfl, rfl, ?_, ?_, ?_⟩
      · intro hnone
        show sanitizeText (labelValue tituloClasses (sanitizeText r)) = ""
        rw [labelValue, hnone]
        rfl
      · intro hnone
        show sanitizeText (labelValue cuerpoClasses (sanitizeText r)) = ""
        rw [labelValue, hnone]
        rfl
      · intro hnone
        show sanitizeText (labelValue seccionClasses (sanitizeText r)) = ""
        rw [labelValue, hnone]
        rfl

set_option maxRecDepth 40000 in
/-- Witness for C8: a plain-text request produces the single combined
prompt call, and the labeled response is split at the markers (the response
was whitespace-collapsed first, so the `Título:` capture runs to the end of
the single remaining line). -/
theorem plain_text_single_combined_call_witness :
    (translateService oraclePlain reqPlain).2
        = [ModelCall.genCall (createPromptTranslation "Hello" "World" "News" "Spanish")
            "llama3.2"]
    ∧ (translateService oraclePlain reqPlain).1.sectionText = "Noticias" := by
  have h := plain_text_single_combined_call oraclePlain reqPlain (by decide) (by decide)
    (by decide)
  constructor
  · rw [h.1]; decide
  · have h2 := h.2 respLabeled rfl
    rw [h2.2.2.1]; decide

/-- C10: `ResumeService.summarize` returns the empty response for every
request and every model behavior: `summarize_field` invokes
`resume_article` with the keyword `request`, which is not among
`resume_article`'s parameters `(title, body, model, language)`, so the call
raises `TypeError` before any model interaction and the surrounding
`except Exception` returns empty `article`/`esArticle` fields. -/
theorem summarize_always_empty (g : String → String → Except String String)
    (req : ResumeRequest) :
    summarizeService g req = { article := "", esArticle := "" } := rfl

/-- C1 counterexample: the flat fallback strategy does not satisfy the
identity round trip.  On a chunk containing the literal placeholder token
`{TEXT_1__}` as text, reconstruction with the extracted segments echoed
unchanged yields `"<p>y</p><p>y</p>"`: the first text node's content is
replaced by the second segment and is absent from the output, so the result
is not semantically equivalent to the input (its non-whitespace text content
differs). -/
theorem flat_round_trip_loses_text :
    extractTextFromHtml "<p>\x7bTEXT_1__\x7d</p><p>y</p>"
        = (["\x7bTEXT_1__\x7d", "y"], "<p>\x7bTEXT_0__\x7d</p><p>\x7bTEXT_1__\x7d</p>")
    ∧ reconstructHtml ["\x7bTEXT_1__\x7d", "y"]
        "<p>\x7bTEXT_0__\x7d</p><p>\x7bTEXT_1__\x7d</p>" = "<p>y</p><p>y</p>"
    ∧ containsSub "<p>y</p><p>y</p>" "\x7bTEXT_1__\x7d" = false := by decide

/-- Rendering a singleton content list is rendering its item. -/
theorem renderItems_single (segs : List String) (x : SItem) :
    renderItems segs [x] = renderItem segs x := by
  show renderItem segs x ++ renderItems segs [] = renderItem segs x
  rw [renderItems]
  exact String.append_empty _

/-- Rendering distributes over content-list concatenation. -/
theorem renderItems_append (segs : List String) :
    ∀ a b : List SItem, renderItems segs (a ++ b)
      = renderItems segs a ++ renderItems segs b := by
  intro a
  induction a with
  | nil =>
      intro b
      rw [List.nil_append, renderItems]
      exact (String.empty_append _).symm
  | cons x xs ih =>
      intro b
      rw [List.cons_append, renderItems, renderItems, ih, String.append_assoc]

/-- Looking up the position right after a prefix. -/
theorem getD_append_cons (a d : String) :
    ∀ (l r : List String), (l ++ a :: r).getD l.length d = a := by
  intro l
  induction l with
  | nil => intro r; rfl
  | cons x xs ih => intro r; simpa using ih r

/-- `altStep` agrees with the spec-side `specAltVal`: it either appends
exactly the spec value, indexed at the current segment count, or records
nothing. -/
theorem altStep_spec (name : String) (attrs : List (String × AttrVal))
    (segs : List String) :
    (∃ a, specAltVal name attrs = some a
        ∧ altStep name attrs segs = (segs ++ [a], some segs.length))
    ∨ (specAltVal name attrs = none ∧ altStep name attrs segs = (segs, none)) := by
  unfold specAltVal altStep
  by_cases hn : name = "img"
  · rw [if_pos hn, if_pos hn]
    cases hv : getAttr attrs "alt" with
    | none => right; exact ⟨rfl, rfl⟩
    | some v =>
        cases v with
        | str s =>
            by_cases hs : s = ""
            · right
              exact ⟨by simp [hs], by simp [attrTruthy, hs]⟩
            · by_cases ht : pyStrip s = ""
              · right
                exact ⟨by simp [hs, ht], by simp [attrTruthy, hs, ht]⟩
              · left
                exact ⟨pyStrip s, by simp [hs, ht], by simp [attrTruthy, hs, ht]⟩
        | list l =>
            by_cases hl : l.isEmpty
            · right; exact ⟨rfl, by simp [attrTruthy, hl]⟩
            · right; exact ⟨rfl, by simp [attrTruthy, hl]⟩
        | null => right; exact ⟨rfl, by simp [attrTruthy]⟩
  · rw [if_neg hn, if_neg hn]
    right
    exact ⟨rfl, rfl⟩

/-- `titleStep` agrees with the spec-side `specTitleVal`. -/
theorem titleStep_spec (attrs : List (String × AttrVal)) (segs : List String) :
    (∃ t, specTitleVal attrs = some t
        ∧ titleStep attrs segs = (segs ++ [t], some segs.length))
    ∨ (specTitleVal attrs = none ∧ titleStep attrs segs = (segs, none)) := by
  unfold specTitleVal titleStep
  cases hv : getAttr attrs "title" with
  | none => right; exact ⟨rfl, rfl⟩
  | some v =>
      cases v with
      | str s =>
          by_cases hs : s = ""
          · right
            exact ⟨by simp [hs], by simp [attrTruthy, hs]⟩
          · by_cases ht : pyStrip s = ""
            · right
              exact ⟨by simp [hs, ht], by simp [attrTruthy, hs, ht]⟩
            · left
              exact ⟨pyStrip s, by simp [hs, ht], by simp [attrTruthy, hs, ht]⟩
      | list l =>
          by_cases hl : l.isEmpty
          · right; exact ⟨rfl, by simp [attrTruthy, hl]⟩
          · right; exact ⟨rfl, by simp [attrTruthy, hl]⟩
      | null => right; exact ⟨rfl, by simp [attrTruthy]⟩

/-- `altStep` only appends to the segment accumulator. -/
theorem altStep_fst (name : String) (attrs : List (String × AttrVal))
    (segs : List String) : ∃ d, (altStep name attrs segs).1 = segs ++ d := by
  rcases altStep_spec name attrs segs with ⟨a, _, heq⟩ | ⟨_, heq⟩
  · exact ⟨[a], by rw [heq]⟩
  · exact ⟨[], by rw [heq]; simp⟩

/-- `titleStep` only appends to the segment accumulator. -/
theorem titleStep_fst (attrs : List (String × AttrVal)) (segs : List String) :
    ∃ d, (titleStep attrs segs).1 = segs ++ d := by
  rcases titleStep_spec attrs segs with ⟨t, _, heq⟩ | ⟨_, heq⟩
  · exact ⟨[t], by rw [heq]⟩
  · exact ⟨[], by rw [heq]; simp⟩

mutual
/-- `process_element` only appends to the segment accumulator. -/
theorem processElement_extend (n : Node) : ∀ segs : List String,
    ∃ d, (processElement n segs).1 = segs ++ d := by
  cases n with
  | text s =>
      intro segs
      simp only [processElement]
      split
      · exact ⟨[pyStrip s], rfl⟩
      · exact ⟨[], by simp⟩
  | tag name attrs children =>
      intro segs
      obtain ⟨d1, h1⟩ := altStep_fst name attrs segs
      obtain ⟨d2, h2⟩ := titleStep_fst attrs ((altStep name attrs segs).1)
      obtain ⟨d3, h3⟩ :=
        processChildren_extend children ((titleStep attrs ((altStep name attrs segs).1)).1)
      refine ⟨d1 ++ d2 ++ d3, ?_⟩
      have key : (processElement (Node.tag name attrs children) segs).1
          = (processChildren children
              ((titleStep attrs ((altStep name attrs segs).1)).1)).1 := rfl
      rw [key, h3, h2, h1]
      simp
/-- `process_element` over a child list only appends to the accumulator. -/
theorem processChildren_extend (ns : List Node) : ∀ segs : List String,
    ∃ d, (processChildren ns segs).1 = segs ++ d := by
  cases ns with
  | nil => intro segs; exact ⟨[], by simp [processChildren]⟩
  | cons c cs =>
      intro segs
      obtain ⟨d1, h1⟩ := processElement_extend c segs
      obtain ⟨d2, h2⟩ := processChildren_extend cs ((processElement c segs).1)
      refine ⟨d1 ++ d2, ?_⟩
      have key : (processChildren (c :: cs) segs).1
          = (processChildren cs ((processElement c segs).1)).1 := rfl
      rw [key, h2, h1]
      simp
end

/-- Position and value of an element sitting right after a known prefix. -/
theorem getD_of_eq_append_cons (full pre : List String) (a : String)
    (rest : List String) (h : full = pre ++ a :: rest) :
    pre.length < full.length ∧ full.getD pre.length "" = a := by
  constructor
  · rw [h]; simp
  · rw [h]; exact getD_append_cons a "" pre rest

mutual
/-- Identity-translation rendering of one extracted node, for any segment
list extending the extraction's accumulator. -/
theorem renderEl (n : Node) : ∀ (segs0 full : List String),
    (∃ r, full = (processElement n segs0).1 ++ r) →
    renderItems full (processElement n segs0).2 = specRoundTripNode n := by
  cases n with
  | text s =>
      intro segs0 full hext
      obtain ⟨r, hr⟩ := hext
      by_cases h : pyStrip s ≠ ""
      · have heq : processElement (Node.text s) segs0
            = (segs0 ++ [pyStrip s], [SItem.stext segs0.length (pyStrip s)]) := by
          simp only [processElement, if_pos h]
        rw [heq] at hr ⊢
        rw [renderItems_single]
        have hfull : full = segs0 ++ pyStrip s :: r := by rw [hr]; simp
        show full.getD segs0.length (pyStrip s) = specRoundTripNode (Node.text s)
        rw [hfull, getD_append_cons]
        rfl
      · have heq : processElement (Node.text s) segs0 = (segs0, []) := by
          simp only [processElement, if_neg h]
        rw [heq]
        show renderItems full [] = specRoundTripNode (Node.text s)
        rw [renderItems]
        show "" = pyStrip s
        exact (not_not.mp h).symm
  | tag name attrs children =>
      intro segs0 full hext
      obtain ⟨r, hr⟩ := hext
      have hfst : (processElement (Node.tag name attrs children) segs0).1
          = (processChildren children
              ((titleStep attrs ((altStep name attrs segs0).1)).1)).1 := rfl
      have hitem : (processElement (Node.tag name attrs children) segs0).2
          = [SItem.stag name attrs ((altStep name attrs segs0).2)
              ((titleStep attrs ((altStep name attrs segs0).1)).2)
              ((processChildren children
                ((titleStep attrs ((altStep name attrs segs0).1)).1)).2)] := rfl
      rw [hitem, renderItems_single]
      have hchild : renderItems full
          ((processChildren children
            ((titleStep attrs ((altStep name attrs segs0).1)).1)).2)
          = specRoundTripForest children :=
        renderList children ((titleStep attrs ((altStep name attrs segs0).1)).1) full
          ⟨r, by rw [hr, hfst]⟩
      obtain ⟨d3, h3⟩ :=
        processChildren_extend children ((titleStep attrs ((altStep name attrs segs0).1)).1)
      rcases altStep_spec name attrs segs0 with ⟨a, hsa, heqa⟩ | ⟨hsa, heqa⟩
      · have hs1 : (altStep name attrs segs0).1 = segs0 ++ [a] := by rw [heqa]
        have hialt : (altStep name attrs segs0).2 = some segs0.length := by rw [heqa]
        rcases titleStep_spec attrs ((altStep name attrs segs0).1) with
          ⟨t, hst, heqt⟩ | ⟨hst, heqt⟩
        · have hs2 : (titleStep attrs ((altStep name attrs segs0).1)).1
              = (segs0 ++ [a]) ++ [t] := by rw [heqt, hs1]
          have hititle : (titleStep attrs ((altStep name attrs segs0).1)).2
              = some (segs0 ++ [a]).length := by rw [heqt, hs1]
          have hfull : full = segs0 ++ a :: ([t] ++ (d3 ++ r)) := by
            rw [hr, hfst, h3, hs2]; simp
          obtain ⟨hlenA, hgetA⟩ := getD_of_eq_append_cons full segs0 a _ hfull
          have hfull2 : full = (segs0 ++ [a]) ++ t :: (d3 ++ r) := by
            rw [hr, hfst, h3, hs2]; simp
          obtain ⟨hlenT, hgetT⟩ := getD_of_eq_append_cons full (segs0 ++ [a]) t _ hfull2
          simp only [renderItem, specRoundTripNode, hialt, hititle, hsa, hst, hchild]
          rw [if_pos hlenA, if_pos hlenT, hgetA, hgetT]
        · have hs2 : (titleStep attrs ((altStep name attrs segs0).1)).1
              = segs0 ++ [a] := by rw [heqt, hs1]
          have hititle : (titleStep attrs ((altStep name attrs segs0).1)).2 = none := by
            rw [heqt]
          have hfull : full = segs0 ++ a :: (d3 ++ r) := by
            rw [hr, hfst, h3, hs2]; simp
          obtain ⟨hlenA, hgetA⟩ := getD_of_eq_append_cons full segs0 a _ hfull
          simp only [renderItem, specRoundTripNode, hialt, hititle, hsa, hst, hchild]
          rw [if_pos hlenA, hgetA]
      · have hs1 : (altStep name attrs segs0).1 = segs0 := by rw [heqa]
        have hialt : (altStep name attrs segs0).2 = none := by rw [heqa]
        rcases titleStep_spec attrs ((altStep name attrs segs0).1) with
          ⟨t, hst, heqt⟩ | ⟨hst, heqt⟩
        · have hs2 : (titleStep attrs ((altStep name attrs segs0).1)).1
              = segs0 ++ [t] := by rw [heqt, hs1]
          have hititle : (titleStep attrs ((altStep name attrs segs0).1)).2
              = some segs0.length := by rw [heqt, hs1]
          have hfull : full = segs0 ++ t :: (d3 ++ r) := by
            rw [hr, hfst, h3, hs2]; simp
          obtain ⟨hlenT, hgetT⟩ := getD_of_eq_append_cons full segs0 t _ hfull
          simp only [renderItem, specRoundTripNode, hialt, hititle, hsa, hst, hchild]
          rw [if_pos hlenT, hgetT]
        · have hititle : (titleStep attrs ((altStep name attrs segs0).1)).2 = none := by
            rw [heqt]
          simp only [renderItem, specRoundTripNode, hialt, hititle, hsa, hst, hchild]
/-- Identity-translation rendering of an extracted child list. -/
theorem renderList (ns : List Node) : ∀ (segs0 full : List String),
    (∃ r, full = (processChildren ns segs0).1 ++ r) →
    renderItems full (processChildren ns segs0).2 = specRoundTripForest ns := by
  cases ns with
  | nil =>
      intro segs0 full hext
      show renderItems full (processChildren [] segs0).2 = specRoundTripForest []
      rw [show (processChildren [] segs0).2 = [] from rfl, renderItems]
      rfl
  | cons c cs =>
      intro segs0 full hext
      obtain ⟨r, hr⟩ := hext
      have hfst : (processChildren (c :: cs) segs0).1
          = (processChildren cs ((processElement c segs0).1)).1 := rfl
      have hsnd : (processChildren (c :: cs) segs0).2
          = (processElement c segs0).2
            ++ (processChildren cs ((processElement c segs0).1)).2 := rfl
      rw [hsnd, renderItems_append]
      have h1 : renderItems full (processElement c segs0).2 = specRoundTripNode c := by
        refine renderEl c segs0 full ?_
        obtain ⟨d2, hd2⟩ := processChildren_extend cs ((processElement c segs0).1)
        exact ⟨d2 ++ r, by rw [hr, hfst, hd2]; simp⟩
      have h2 : renderItems full (processChildren cs ((processElement c segs0).1)).2
          = specRoundTripForest cs :=
        renderList cs ((processElement c segs0).1) full ⟨r, by rw [hr, hfst]⟩
      rw [h1, h2]
      rfl
end

/-- C1 amended: the structural strategy satisfies the identity round trip —
for every parsed forest, reconstructing with the extracted segments echoed
unchanged yields exactly the spec-side serialization of the forest (same tag
names in the same order, same attribute keys, text and extracted `alt`/`title`
values whitespace-trimmed, whitespace-only text dropped). -/
theorem structural_identity_round_trip (roots : List Node) :
    reconstructHtmlFromStructure (extractTextWithStructure roots).1
      (extractTextWithStructure roots).2 = specRoundTripForest roots := by
  have h : extractTextWithStructure roots
      = ((processChildren roots []).1, SMap.root (processChildren roots []).2) := rfl
  rw [h]
  show renderItems (processChildren roots []).1 (processChildren roots []).2
      = specRoundTripForest roots
  exact renderList roots [] (processChildren roots []).1 ⟨[], by simp⟩
